import Mathlib

/-!
Verification development for the imapflow.com documentation repository.

The repository is a Docusaurus documentation site for the ImapFlow IMAP
client library.  The behavioural claims concern the client contract that
the documentation states: the connection lifecycle state machine drawn in
`docs/guides/fetching-messages.md`, the mailbox-lock discipline, and the
fetch-iterator restriction.  The connection state machine is embedded
directly from the mermaid `stateDiagram-v2` in the documentation source;
the lock and fetch semantics, whose implementation lives in the external
ImapFlow library rather than in this repository, are modelled from the
specification's words and marked as such.  The site configuration
(`onBrokenLinks`, sidebar tree, navbar, footer, Algolia search keys) is
embedded from the Docusaurus config sources.
-/

namespace ImapflowDocs

/-- The connection states named by the `stateDiagram-v2` block in
`docs/guides/fetching-messages.md` (Connection Lifecycle section). -/
inductive ConnState where
  | Disconnected
  | Connecting
  | Authenticated
  | Selected
  | Idling
deriving DecidableEq, Repr, Fintype

/-- The transition labels of the documented connection lifecycle diagram. -/
inductive ConnLabel where
  | connect
  | authSuccess
  | authFailure
  | getMailboxLock
  | lockRelease
  | autoIdle
  | command
  | logout
deriving DecidableEq, Repr, Fintype

open ConnState ConnLabel

/-- The transition list of the mermaid `stateDiagram-v2` in
`docs/guides/fetching-messages.md`, one triple per arrow of the diagram. -/
def connTransitions : List (ConnState × ConnLabel × ConnState) :=
  [ (Disconnected, connect, Connecting),
    (Connecting, authSuccess, Authenticated),
    (Connecting, authFailure, Disconnected),
    (Authenticated, getMailboxLock, Selected),
    (Selected, lockRelease, Authenticated),
    (Selected, autoIdle, Idling),
    (Idling, command, Selected),
    (Authenticated, logout, Disconnected),
    (Selected, logout, Disconnected),
    (Idling, logout, Disconnected) ]

/-- The documented connection lifecycle as a step relation: `connStep s l t`
holds exactly when the diagram has an arrow from `s` to `t` labelled `l`. -/
def connStep (s : ConnState) (l : ConnLabel) (t : ConnState) : Bool :=
  connTransitions.contains (s, l, t)

/-- C5: the connection state machine has exactly the five documented states
and exactly the ten documented transitions: Disconnected to Connecting on
connect(), Connecting to Authenticated on auth success, Connecting to
Disconnected on auth failure, Authenticated to Selected on
getMailboxLock(), Selected to Authenticated on lock.release(), Selected
and Idling interchanging on auto-IDLE and commands, and logout() to
Disconnected from each of Authenticated, Selected and Idling. -/
theorem connStateMachine_exact :
    (∀ s : ConnState,
      s = Disconnected ∨ s = Connecting ∨ s = Authenticated ∨
        s = Selected ∨ s = Idling) ∧
    (∀ s l t, connStep s l t = true ↔
      ((s = Disconnected ∧ l = connect ∧ t = Connecting) ∨
       (s = Connecting ∧ l = authSuccess ∧ t = Authenticated) ∨
       (s = Connecting ∧ l = authFailure ∧ t = Disconnected) ∨
       (s = Authenticated ∧ l = getMailboxLock ∧ t = Selected) ∨
       (s = Selected ∧ l = lockRelease ∧ t = Authenticated) ∨
       (s = Selected ∧ l = autoIdle ∧ t = Idling) ∨
       (s = Idling ∧ l = command ∧ t = Selected) ∨
       (s = Authenticated ∧ l = logout ∧ t = Disconnected) ∨
       (s = Selected ∧ l = logout ∧ t = Disconnected) ∨
       (s = Idling ∧ l = logout ∧ t = Disconnected))) := by
  constructor
  · intro s; cases s <;> simp
  · decide

/-- C7: the only transition out of Disconnected is the caller-initiated
connect() into Connecting, and the only transition into Connecting is that
same connect() from Disconnected; the documented machine has no
spontaneous re-entry into Connecting after a disconnection. -/
theorem noAutoReconnect :
    (∀ l t, connStep Disconnected l t = true ↔
      (l = connect ∧ t = Connecting)) ∧
    (∀ s l, connStep s l Connecting = true ↔
      (s = Disconnected ∧ l = connect)) := by
  constructor <;> decide

/-- A connection session: the lifecycle state of the diagram together with
whether a mailbox lock is currently held on the connection. -/
structure SessionState where
  conn : ConnState
  lockHeld : Bool
deriving DecidableEq, Repr, Fintype

/-- Modelled from the spec: the ImapFlow client implementation is not part
of this repository, so the coupling of the lifecycle with the mailbox lock
is taken from the specification's words — `getMailboxLock()` acquires the
lock on entering Selected, `lock.release()` drops it on returning to
Authenticated, and leaving the session (logout, auth failure) drops it;
auto-IDLE and commands inside Selected/Idling keep the lock held. -/
def sessionStep (s : SessionState) (l : ConnLabel) (t : SessionState) : Bool :=
  connStep s.conn l t.conn &&
    (t.lockHeld == match l with
      | ConnLabel.getMailboxLock => true
      | ConnLabel.lockRelease => false
      | ConnLabel.logout => false
      | ConnLabel.connect => false
      | ConnLabel.authSuccess => false
      | ConnLabel.authFailure => false
      | _ => s.lockHeld)

/-- The initial session: disconnected, no lock held. -/
def initSession : SessionState := ⟨ConnState.Disconnected, false⟩

/-- The states of the session machine reachable from the initial state. -/
inductive sessionReachable : SessionState → Prop where
  | init : sessionReachable initSession
  | step : ∀ s l t, sessionReachable s → sessionStep s l t = true →
      sessionReachable t

/-- The lock invariant: the lock is held exactly in Selected and Idling. -/
def lockInv (s : SessionState) : Bool :=
  s.lockHeld == (s.conn == ConnState.Selected || s.conn == ConnState.Idling)

theorem lockInv_init : lockInv initSession = true := by decide

theorem lockInv_step : ∀ s l t, lockInv s = true →
    sessionStep s l t = true → lockInv t = true := by decide

theorem lockInv_reachable : ∀ s, sessionReachable s → lockInv s = true := by
  intro s h
  induction h with
  | init => exact lockInv_init
  | step s l t _ hstep ih => exact lockInv_step s l t ih hstep

/-- C6: in every reachable session state, the connection is in Selected or
Idling only while the mailbox lock is held; entry into Selected is gated
by lock acquisition and no reachable state is Selected or Idling without
the lock. -/
theorem selectedRequiresLock (s : SessionState) (h : sessionReachable s)
    (hsel : s.conn = ConnState.Selected ∨ s.conn = ConnState.Idling) :
    s.lockHeld = true := by
  have hinv := lockInv_reachable s h
  unfold lockInv at hinv
  rcases hsel with h1 | h1 <;> rw [h1] at hinv <;> simpa using hinv

/-- A concrete reachable Selected state witnessing `selectedRequiresLock`:
connect, auth success, then getMailboxLock reach Selected with the lock
held. -/
theorem selectedRequiresLock_witness :
    sessionReachable ⟨ConnState.Selected, true⟩ ∧
      (ConnState.Selected = ConnState.Selected ∨
        ConnState.Selected = ConnState.Idling) ∧
      (true : Bool) = true := by
  have h1 : sessionReachable ⟨ConnState.Connecting, false⟩ :=
    sessionReachable.step initSession ConnLabel.connect _
      sessionReachable.init (by decide)
  have h2 : sessionReachable ⟨ConnState.Authenticated, false⟩ :=
    sessionReachable.step _ ConnLabel.authSuccess _ h1 (by decide)
  have h3 : sessionReachable ⟨ConnState.Selected, true⟩ :=
    sessionReachable.step _ ConnLabel.getMailboxLock _ h2 (by decide)
  exact ⟨h3, Or.inl rfl,
    selectedRequiresLock ⟨ConnState.Selected, true⟩ h3 (Or.inl rfl)⟩

/-- The state of the mailbox lock of one connection: the list of tasks
currently holding the lock and the FIFO queue of tasks waiting to acquire
it.  Tasks are identified by natural numbers. -/
structure LockState where
  holders : List Nat
  waiting : List Nat
deriving DecidableEq, Repr

/-- Events on the mailbox lock: a task requests the lock, a task releases
the lock it holds, or the lock is granted to the next waiter. -/
inductive LockEvent where
  | request (t : Nat)
  | release (t : Nat)
  | grant
deriving DecidableEq, Repr

/-- Modelled from the spec: the `getMailboxLock` implementation is not in
this repository; per the specification, acquisition blocks until any
prior lock on the same connection is released, with no timeout.  A
request joins the waiting queue; a grant hands the lock to the head of
the queue and fires only when no prior holder remains; a release drops
the sole holder.  `none` means the event is not enabled in this state —
there is no timeout or cancellation event. -/
def lockStep (s : LockState) : LockEvent → Option LockState
  | LockEvent.request t => some ⟨s.holders, s.waiting ++ [t]⟩
  | LockEvent.release t =>
      if s.holders = [t] then some ⟨[], s.waiting⟩ else none
  | LockEvent.grant =>
      match s.holders, s.waiting with
      | [], w :: ws => some ⟨[w], ws⟩
      | _, _ => none

/-- Run a sequence of lock events from a state; an event that is not
enabled leaves the state unchanged (the caller keeps waiting). -/
def lockRun (s : LockState) : List LockEvent → LockState
  | [] => s
  | e :: es =>
      match lockStep s e with
      | some s' => lockRun s' es
      | none => lockRun s es

/-- The empty lock: nobody holds it, nobody waits. -/
def initLock : LockState := ⟨[], []⟩

theorem lockStep_holders_le : ∀ s e s', lockStep s e = some s' →
    s.holders.length ≤ 1 → s'.holders.length ≤ 1 := by
  intro s e s' h hle
  cases e with
  | request t => simp [lockStep] at h; simp [← h]; exact hle
  | release t =>
      simp only [lockStep] at h
      split at h
      · cases h; simp
      · cases h
  | grant =>
      simp only [lockStep] at h
      split at h
      · cases h; simp
      · cases h

theorem lockRun_holders_le : ∀ es s, s.holders.length ≤ 1 →
    (lockRun s es).holders.length ≤ 1 := by
  intro es
  induction es with
  | nil => intro s h; simpa [lockRun] using h
  | cons e es ih =>
      intro s h
      simp only [lockRun]
      cases hstep : lockStep s e with
      | none => exact ih s h
      | some s' => exact ih s' (lockStep_holders_le s e s' hstep h)

/-- C4: mutual exclusion — starting from the empty lock, every sequence of
requests, grants and releases leaves at most one task holding the mailbox
lock of the connection at any time. -/
theorem lockMutualExclusion (es : List LockEvent) :
    (lockRun initLock es).holders.length ≤ 1 :=
  lockRun_holders_le es initLock (by decide)

theorem lockStep_grant_none (s : LockState) (hne : s.holders ≠ []) :
    lockStep s LockEvent.grant = none := by
  obtain ⟨hs, ws⟩ := s
  cases hs with
  | nil => exact absurd rfl hne
  | cons a as => cases ws <;> rfl

theorem lockRun_noRelease_holders : ∀ es s,
    (∀ u, LockEvent.release u ∉ es) → s.holders ≠ [] →
    (lockRun s es).holders = s.holders := by
  intro es
  induction es with
  | nil => intro s _ _; rfl
  | cons e es ih =>
      intro s hno hne
      have hno' : ∀ u, LockEvent.release u ∉ es := by
        intro u hu
        exact hno u (List.mem_cons_of_mem e hu)
      simp only [lockRun]
      cases e with
      | request t =>
          simp only [lockStep]
          exact ih ⟨s.holders, s.waiting ++ [t]⟩ hno' hne
      | release t =>
          exact absurd (List.mem_cons_self _ _) (hno t)
      | grant =>
          rw [lockStep_grant_none s hne]
          exact ih s hno' hne

theorem lockRun_noRelease_waiting : ∀ es s t,
    (∀ u, LockEvent.release u ∉ es) → s.holders ≠ [] →
    t ∈ s.waiting → t ∈ (lockRun s es).waiting := by
  intro es
  induction es with
  | nil => intro s t _ _ hw; exact hw
  | cons e es ih =>
      intro s t hno hne hw
      have hno' : ∀ u, LockEvent.release u ∉ es := by
        intro u hu
        exact hno u (List.mem_cons_of_mem e hu)
      simp only [lockRun]
      cases e with
      | request u =>
          simp only [lockStep]
          exact ih ⟨s.holders, s.waiting ++ [u]⟩ t hno' hne
            (List.mem_append_left _ hw)
      | release u =>
          exact absurd (List.mem_cons_self _ _) (hno u)
      | grant =>
          rw [lockStep_grant_none s hne]
          exact ih s t hno' hne hw

/-- C3: a `getMailboxLock` acquisition is granted only when every prior
holder has released the lock, and the wait has no timeout: if the lock is
held and no release ever happens, then under every subsequent event
sequence the holder set never changes and a waiting task stays waiting
forever. -/
theorem lockAcquireBlocks :
    (∀ s s', lockStep s LockEvent.grant = some s' → s.holders = []) ∧
    (∀ (s : LockState) (es : List LockEvent) (t : Nat),
      s.holders ≠ [] → (∀ u, LockEvent.release u ∉ es) → t ∈ s.waiting →
      (lockRun s es).holders = s.holders ∧
        t ∈ (lockRun s es).waiting) := by
  constructor
  · intro s s' h
    by_contra hne
    rw [lockStep_grant_none s hne] at h
    cases h
  · intro s es t hne hno hw
    exact ⟨lockRun_noRelease_holders es s hno hne,
      lockRun_noRelease_waiting es s t hno hne hw⟩

/-- Concrete witness for `lockAcquireBlocks`: task 0 holds the lock, task
1 waits; after a further request and a grant attempt with no release,
task 0 still holds the lock and task 1 still waits. -/
theorem lockAcquireBlocks_witness :
    (lockStep ⟨[], [1]⟩ LockEvent.grant = some ⟨[1], []⟩ →
      ([] : List Nat) = []) ∧
    ((lockRun ⟨[0], [1]⟩ [LockEvent.request 2, LockEvent.grant]).holders
        = [0] ∧
      1 ∈ (lockRun ⟨[0], [1]⟩
        [LockEvent.request 2, LockEvent.grant]).waiting) := by
  constructor
  · intro h
    exact lockAcquireBlocks.1 ⟨[], [1]⟩ ⟨[1], []⟩ h
  · exact lockAcquireBlocks.2 ⟨[0], [1]⟩
      [LockEvent.request 2, LockEvent.grant] 1 (by decide)
      (by intro u hu; simp at hu) (by decide)

/-- The state of one connection running a fetch iterator: how many
messages the iterator still has to yield, whether an iterator currently
occupies the connection, whether the iteration body is blocked awaiting a
command it issued, how many commands are queued behind the connection and
how many have completed. -/
structure FetchState where
  fetchPending : Nat
  fetchActive : Bool
  bodyBlocked : Bool
  cmdQueue : Nat
  cmdDone : Nat
deriving DecidableEq, Repr

/-- Events on a connection with a fetch iterator: the iterator yields a
message which the body consumes, the iterator finishes, the body issues a
command from inside the loop and awaits it, a command is issued outside
the loop, or the connection executes a queued command. -/
inductive FetchEvent where
  | yieldStep
  | fetchEnd
  | issueInside
  | issueOutside
  | execCmd
deriving DecidableEq, Repr

/-- Modelled from the spec: the `fetch()` async generator implementation
is not in this repository; per the specification the generator holds the
connection while iterating, a command issued inside the loop queues
behind the connection while the iterator waits for the body to continue,
and a queued command executes only when no fetch occupies the connection.
`none` means the event is not enabled — there is no timeout event. -/
def fetchStep (s : FetchState) : FetchEvent → Option FetchState
  | FetchEvent.yieldStep =>
      if s.fetchActive && !s.bodyBlocked && decide (0 < s.fetchPending) then
        some { s with fetchPending := s.fetchPending - 1 }
      else none
  | FetchEvent.fetchEnd =>
      if s.fetchActive && !s.bodyBlocked && decide (s.fetchPending = 0) then
        some { s with fetchActive := false }
      else none
  | FetchEvent.issueInside =>
      if s.fetchActive && !s.bodyBlocked then
        some { s with cmdQueue := s.cmdQueue + 1, bodyBlocked := true }
      else none
  | FetchEvent.issueOutside =>
      some { s with cmdQueue := s.cmdQueue + 1 }
  | FetchEvent.execCmd =>
      if !s.fetchActive && decide (0 < s.cmdQueue) then
        some { s with cmdQueue := s.cmdQueue - 1, cmdDone := s.cmdDone + 1,
                      bodyBlocked := false }
      else none

/-- Run a sequence of events on the connection; an event that is not
enabled leaves the state unchanged (the blocked party keeps waiting). -/
def fetchRun (s : FetchState) : List FetchEvent → FetchState
  | [] => s
  | e :: es =>
      match fetchStep s e with
      | some s' => fetchRun s' es
      | none => fetchRun s es

/-- C1: deadlock of a command issued inside the fetch loop — in any state
where the iterator occupies the connection and the iteration body is
blocked awaiting a command it issued, every subsequent event sequence of
any length leaves the iterator active, the body blocked, and completes no
command: neither the new command nor the iterator ever completes, and no
timeout breaks the circular wait. -/
theorem fetchLoopDeadlock (s : FetchState) (es : List FetchEvent)
    (hact : s.fetchActive = true) (hblk : s.bodyBlocked = true) :
    (fetchRun s es).fetchActive = true ∧
      (fetchRun s es).bodyBlocked = true ∧
      (fetchRun s es).cmdDone = s.cmdDone := by
  induction es generalizing s with
  | nil => exact ⟨hact, hblk, rfl⟩
  | cons e es ih =>
      simp only [fetchRun]
      cases e with
      | yieldStep =>
          have : fetchStep s FetchEvent.yieldStep = none := by
            simp [fetchStep, hblk]
          rw [this]; exact ih s hact hblk
      | fetchEnd =>
          have : fetchStep s FetchEvent.fetchEnd = none := by
            simp [fetchStep, hblk]
          rw [this]; exact ih s hact hblk
      | issueInside =>
          have : fetchStep s FetchEvent.issueInside = none := by
            simp [fetchStep, hblk]
          rw [this]; exact ih s hact hblk
      | issueOutside =>
          simp only [fetchStep]
          exact ih { s with cmdQueue := s.cmdQueue + 1 } hact hblk
      | execCmd =>
          have : fetchStep s FetchEvent.execCmd = none := by
            simp [fetchStep, hact]
          rw [this]; exact ih s hact hblk

/-- Concrete witness for `fetchLoopDeadlock`: an iterator with five
pending messages whose body issued a command; after attempts to execute
the command, yield and end the fetch, the connection is still deadlocked
with no command done. -/
theorem fetchLoopDeadlock_witness :
    (fetchRun ⟨5, true, true, 1, 0⟩
        [FetchEvent.execCmd, FetchEvent.yieldStep,
         FetchEvent.fetchEnd]).fetchActive = true ∧
      (fetchRun ⟨5, true, true, 1, 0⟩
        [FetchEvent.execCmd, FetchEvent.yieldStep,
         FetchEvent.fetchEnd]).bodyBlocked = true ∧
      (fetchRun ⟨5, true, true, 1, 0⟩
        [FetchEvent.execCmd, FetchEvent.yieldStep,
         FetchEvent.fetchEnd]).cmdDone = (0 : Nat) :=
  fetchLoopDeadlock ⟨5, true, true, 1, 0⟩
    [FetchEvent.execCmd, FetchEvent.yieldStep, FetchEvent.fetchEnd]
    rfl rfl

/-- C2: exclusivity of the fetch iterator — a single step completes a
command only when no fetch occupies the connection, and as long as the
iteration has not ended (no fetchEnd event occurs), the iterator stays
active and no command completes: commands requested during the iteration
do not run before it ends. -/
theorem fetchExcludesCommands :
    (∀ s e s', fetchStep s e = some s' → s.fetchActive = true →
      s'.cmdDone = s.cmdDone) ∧
    (∀ (s : FetchState) (es : List FetchEvent), s.fetchActive = true →
      (∀ e ∈ es, e ≠ FetchEvent.fetchEnd) →
      (fetchRun s es).fetchActive = true ∧
        (fetchRun s es).cmdDone = s.cmdDone) := by
  constructor
  · intro s e s' h hact
    cases e with
    | yieldStep =>
        simp only [fetchStep] at h
        split at h
        · cases h; rfl
        · cases h
    | fetchEnd =>
        simp only [fetchStep] at h
        split at h
        · cases h; rfl
        · cases h
    | issueInside =>
        simp only [fetchStep] at h
        split at h
        · cases h; rfl
        · cases h
    | issueOutside =>
        simp only [fetchStep] at h
        cases h; rfl
    | execCmd =>
        simp [fetchStep, hact] at h
  · intro s es
    induction es generalizing s with
    | nil => intro hact _; exact ⟨hact, rfl⟩
    | cons e es ih =>
        intro hact hno
        have hno' : ∀ e ∈ es, e ≠ FetchEvent.fetchEnd := by
          intro e' he'
          exact hno e' (List.mem_cons_of_mem e he')
        simp only [fetchRun]
        cases e with
        | yieldStep =>
            cases hstep : fetchStep s FetchEvent.yieldStep with
            | none => exact ih s hact hno'
            | some s' =>
                simp only [fetchStep] at hstep
                split at hstep
                · cases hstep
                  exact ih { s with fetchPending := s.fetchPending - 1 }
                    hact hno'
                · cases hstep
        | fetchEnd =>
            exact absurd rfl (hno FetchEvent.fetchEnd (List.mem_cons_self _ _))
        | issueInside =>
            cases hstep : fetchStep s FetchEvent.issueInside with
            | none => exact ih s hact hno'
            | some s' =>
                simp only [fetchStep] at hstep
                split at hstep
                · cases hstep
                  exact ih { s with cmdQueue := s.cmdQueue + 1,
                                    bodyBlocked := true } hact hno'
                · cases hstep
        | issueOutside =>
            simp only [fetchStep]
            exact ih { s with cmdQueue := s.cmdQueue + 1 } hact hno'
        | execCmd =>
            have : fetchStep s FetchEvent.execCmd = none := by
              simp [fetchStep, hact]
            rw [this]; exact ih s hact hno'

/-- Concrete witness for `fetchExcludesCommands`: with an active fetch, an
issueOutside step completes no command, and a run that requests and tries
to execute a command without ending the fetch completes none either. -/
theorem fetchExcludesCommands_witness :
    ((⟨3, true, false, 2, 0⟩ : FetchState).cmdDone = (0 : Nat)) ∧
    ((fetchRun ⟨3, true, false, 1, 0⟩
        [FetchEvent.issueOutside, FetchEvent.execCmd,
         FetchEvent.yieldStep]).fetchActive = true ∧
      (fetchRun ⟨3, true, false, 1, 0⟩
        [FetchEvent.issueOutside, FetchEvent.execCmd,
         FetchEvent.yieldStep]).cmdDone = (0 : Nat)) := by
  constructor
  · exact fetchExcludesCommands.1 ⟨3, true, false, 1, 0⟩
      FetchEvent.issueOutside ⟨3, true, false, 2, 0⟩ rfl rfl
  · exact fetchExcludesCommands.2 ⟨3, true, false, 1, 0⟩
      [FetchEvent.issueOutside, FetchEvent.execCmd, FetchEvent.yieldStep]
      rfl (by intro e he; simp at he; rcases he with h | h | h <;>
        simp [h])

/-- The safe collect-then-process schedule: consume all `m` pending
messages without issuing commands inside the loop (this is also what
`fetchAll` does internally), end the iteration, and only then issue and
execute each of the `n` dependent commands. -/
def safeSchedule (m n : Nat) : List FetchEvent :=
  List.replicate m FetchEvent.yieldStep ++ [FetchEvent.fetchEnd] ++
    (List.replicate n
      [FetchEvent.issueOutside, FetchEvent.execCmd]).flatten

theorem fetchRun_append (s : FetchState) (es1 es2 : List FetchEvent) :
    fetchRun s (es1 ++ es2) = fetchRun (fetchRun s es1) es2 := by
  induction es1 generalizing s with
  | nil => rfl
  | cons e es ih =>
      simp only [List.cons_append, fetchRun]
      cases h : fetchStep s e with
      | some s' => exact ih s'
      | none => exact ih s

theorem fetchRun_yieldPhase : ∀ m q d,
    fetchRun ⟨m, true, false, q, d⟩
        (List.replicate m FetchEvent.yieldStep) =
      ⟨0, true, false, q, d⟩ := by
  intro m
  induction m with
  | zero => intro q d; rfl
  | succ k ih =>
      intro q d
      rw [List.replicate_succ]
      simp only [fetchRun]
      rw [show fetchStep ⟨k + 1, true, false, q, d⟩ FetchEvent.yieldStep =
        some ⟨k, true, false, q, d⟩ by simp [fetchStep]]
      exact ih q d

theorem fetchRun_cmdPhase : ∀ n d,
    fetchRun ⟨0, false, false, 0, d⟩
        ((List.replicate n
          [FetchEvent.issueOutside, FetchEvent.execCmd]).flatten) =
      ⟨0, false, false, 0, d + n⟩ := by
  intro n
  induction n with
  | zero => intro d; rfl
  | succ k ih =>
      intro d
      have h : fetchRun ⟨0, false, false, 0, d⟩
          ((List.replicate (k + 1)
            [FetchEvent.issueOutside, FetchEvent.execCmd]).flatten) =
        fetchRun ⟨0, false, false, 0, d + 1⟩
          ((List.replicate k
            [FetchEvent.issueOutside, FetchEvent.execCmd]).flatten) := rfl
      rw [h, ih (d + 1), Nat.add_assoc, Nat.add_comm 1 k]

/-- C8: the safe pattern is deadlock-free — for every number `m` of
messages and `n` of dependent commands, fully materializing the fetch
results before mutating state (completing the iteration, as `fetchAll`
does, before issuing dependent commands) ends the iteration, completes
every issued command, and leaves no party blocked. -/
theorem safePatternCompletes (m n : Nat) :
    fetchRun ⟨m, true, false, 0, 0⟩ (safeSchedule m n) =
      ⟨0, false, false, 0, n⟩ := by
  unfold safeSchedule
  rw [List.append_assoc, fetchRun_append, fetchRun_yieldPhase m 0 0,
    fetchRun_append]
  have h : fetchRun ⟨0, true, false, 0, 0⟩ [FetchEvent.fetchEnd] =
      ⟨0, false, false, 0, 0⟩ := rfl
  rw [h, fetchRun_cmdPhase n 0, Nat.zero_add]

/-- A Docusaurus sidebar item as written in `sidebars.ts`: a doc id, a
category with a label, collapsed flag and child items, or a raw html
block. -/
inductive SidebarItem where
  | doc (id : String)
  | category (catLabel : String) (collapsed : Bool) (items : List SidebarItem)
  | html
deriving Repr

/-- The `tutorialSidebar` tree from `sidebars.ts`. -/
def tutorialSidebar : List SidebarItem :=
  [ SidebarItem.doc "intro",
    SidebarItem.category "Getting Started" false
      [ SidebarItem.doc "getting-started/installation",
        SidebarItem.doc "getting-started/quick-start" ],
    SidebarItem.category "Guides" false
      [ SidebarItem.doc "guides/basic-usage",
        SidebarItem.doc "guides/configuration",
        SidebarItem.doc "guides/fetching-messages",
        SidebarItem.doc "guides/searching",
        SidebarItem.doc "guides/mailbox-management" ],
    SidebarItem.category "API Reference" false
      [ SidebarItem.doc "api/imapflow-client" ],
    SidebarItem.category "Examples" true
      [ SidebarItem.doc "examples/fetching-messages" ],
    SidebarItem.html ]

/-- All document ids of a sidebar tree, in order. -/
def sidebarDocIds : List SidebarItem → List String
  | [] => []
  | SidebarItem.doc i :: rest => i :: sidebarDocIds rest
  | SidebarItem.category _ _ items :: rest =>
      sidebarDocIds items ++ sidebarDocIds rest
  | SidebarItem.html :: rest => sidebarDocIds rest

/-- A navbar item from the Docusaurus config: either a doc-sidebar link
or an external href link. -/
inductive NavbarItem where
  | docSidebar (sidebarId itemLabel position : String)
  | href (url itemLabel position : String)
deriving DecidableEq, Repr

/-- One link of a footer column. -/
structure FooterLink where
  linkLabel : String
  target : String
deriving DecidableEq, Repr

/-- One column of the footer. -/
structure FooterColumn where
  title : String
  links : List FooterLink
deriving DecidableEq, Repr

/-- The Algolia DocSearch settings of the config. -/
structure AlgoliaConfig where
  appId : String
  apiKey : String
  indexName : String
  contextualSearch : Bool
  searchPagePath : Option String
  insights : Option Bool
deriving DecidableEq, Repr

/-- The slice of a Docusaurus site configuration that the claims are
about. -/
structure SiteConfig where
  title : String
  onBrokenLinks : String
  navbarItems : List NavbarItem
  footerColumns : List FooterColumn
  algolia : AlgoliaConfig
deriving DecidableEq, Repr

/-- The navbar items shared by both config sources. -/
def imapflowNavbar : List NavbarItem :=
  [ NavbarItem.docSidebar "tutorialSidebar" "Documentation" "left",
    NavbarItem.href "https://github.com/postalsys/imapflow" "GitHub" "right",
    NavbarItem.href "https://www.npmjs.com/package/imapflow" "npm" "right" ]

/-- The footer columns shared by both config sources. -/
def imapflowFooter : List FooterColumn :=
  [ ⟨"Docs",
      [ ⟨"Getting Started", "/docs/"⟩,
        ⟨"API Reference", "/docs/api/imapflow-client"⟩ ]⟩,
    ⟨"Community",
      [ ⟨"GitHub Issues", "https://github.com/postalsys/imapflow/issues"⟩,
        ⟨"npm", "https://www.npmjs.com/package/imapflow"⟩ ]⟩,
    ⟨"More",
      [ ⟨"GitHub", "https://github.com/postalsys/imapflow"⟩,
        ⟨"EmailEngine", "https://emailengine.app/"⟩ ]⟩ ]

/-- The first site configuration source (the variant with the default
Docusaurus social card and the older Algolia credentials). -/
def configA : SiteConfig :=
  { title := "ImapFlow",
    onBrokenLinks := "throw",
    navbarItems := imapflowNavbar,
    footerColumns := imapflowFooter,
    algolia :=
      { appId := "BH4D9OD16A",
        apiKey := "082c6635b32d44ed095369a5f1c790fd",
        indexName := "imapflow",
        contextualSearch := true,
        searchPagePath := none,
        insights := none } }

/-- The second site configuration source (the variant with the ImapFlow
social card, Plausible analytics and the current Algolia credentials). -/
def configB : SiteConfig :=
  { title := "ImapFlow",
    onBrokenLinks := "throw",
    navbarItems := imapflowNavbar,
    footerColumns := imapflowFooter,
    algolia :=
      { appId := "P0H02EB2AJ",
        apiKey := "f482204f0e3ef705441e4382bb225275",
        indexName := "ImapFlow Documentation",
        contextualSearch := true,
        searchPagePath := some "search",
        insights := some true } }

/-- Modelled from the spec: the site's package.json scripts are not under
src; per the specification the static site's entry points are the
commands start, build, serve and typecheck. -/
def siteCommands : List String := ["start", "build", "serve", "typecheck"]

/-- The label of a navbar item. -/
def navbarItemLabel : NavbarItem → String
  | NavbarItem.docSidebar _ l _ => l
  | NavbarItem.href _ l _ => l

/-- C9: the repository's external interface is exactly the entry-point
commands start, build, serve and typecheck together with the content
structure: the ten sidebar documents of `sidebars.ts` in order, the three
navbar links, the three footer columns with their six links, and the
Algolia search-provider keys of the site configuration. -/
theorem externalInterface_exact :
    siteCommands = ["start", "build", "serve", "typecheck"] ∧
    sidebarDocIds tutorialSidebar =
      [ "intro",
        "getting-started/installation",
        "getting-started/quick-start",
        "guides/basic-usage",
        "guides/configuration",
        "guides/fetching-messages",
        "guides/searching",
        "guides/mailbox-management",
        "api/imapflow-client",
        "examples/fetching-messages" ] ∧
    configB.navbarItems.map navbarItemLabel =
      ["Documentation", "GitHub", "npm"] ∧
    configB.footerColumns.map FooterColumn.title =
      ["Docs", "Community", "More"] ∧
    (configB.footerColumns.map
        (fun c => c.links.map FooterLink.linkLabel)).flatten =
      [ "Getting Started", "API Reference", "GitHub Issues", "npm",
        "GitHub", "EmailEngine" ] ∧
    configB.algolia.appId = "P0H02EB2AJ" ∧
    configB.algolia.indexName = "ImapFlow Documentation" ∧
    configB.algolia.searchPagePath = some "search" := by
  refine ⟨rfl, ?_, rfl, rfl, rfl, rfl, rfl, rfl⟩
  simp [tutorialSidebar, sidebarDocIds]

/-- Modelled from the spec: the Docusaurus build pipeline is not in this
repository; with `onBrokenLinks: 'throw'` a build whose input contains a
broken internal link fails with an error instead of producing a site
containing the broken link. -/
def buildSite (c : SiteConfig) (brokenLinks : List String) :
    Except String Unit :=
  if brokenLinks.isEmpty then Except.ok ()
  else if c.onBrokenLinks == "throw" then Except.error "broken links"
  else Except.ok ()

/-- C10: both site configurations set onBrokenLinks to throw, so every
build input with a broken internal documentation link makes the build of
either configuration fail with an error. -/
theorem brokenLinksFailBuild (links : List String) (h : links ≠ []) :
    configA.onBrokenLinks = "throw" ∧
    configB.onBrokenLinks = "throw" ∧
    buildSite configA links = Except.error "broken links" ∧
    buildSite configB links = Except.error "broken links" := by
  cases links with
  | nil => exact absurd rfl h
  | cons a as =>
      refine ⟨rfl, rfl, ?_, ?_⟩ <;> simp [buildSite, configA, configB]

/-- Concrete witness for `brokenLinksFailBuild`: a one-element list of
broken links fails the build of both configurations. -/
theorem brokenLinksFailBuild_witness :
    configA.onBrokenLinks = "throw" ∧
    configB.onBrokenLinks = "throw" ∧
    buildSite configA ["/docs/missing-page"] =
      Except.error "broken links" ∧
    buildSite configB ["/docs/missing-page"] =
      Except.error "broken links" :=
  brokenLinksFailBuild ["/docs/missing-page"] (by simp)

end ImapflowDocs
